import Mathlib

/-!
# Verification of the `pstruct` offset-accessor model

Shallow embedding of the `pstruct` crate (src/lib.rs, src/types.rs): the
`offset` attribute model, its validation pipeline, and the semantics of the
accessor methods the macro generates (address arithmetic over a byte-addressed
memory, unaligned loads, pointer reinterpretation and bounds-checked array
indexing), together with the generated view type's contract.

Pointers are modelled by their addresses (natural numbers); a field's logical
type is represented by its byte size; memory is a function from addresses to
stored bytes.
-/

namespace PStruct

/-- The construction-time errors a schema build can raise
(src/lib.rs and src/types.rs error paths). Field-level errors carry the name
of the offending field, mirroring `syn::Error::new_spanned` attaching the
error to the field's tokens. -/
inductive PError where
  | unsupportedShape
  | missingOffsetAttr (field : String)
  | conflictingModifiers (field : String)
  | invalidArraySize (field : String)
deriving DecidableEq

/-- One non-positional argument of the `#[offset(...)]` attribute:
`array(size)` or `reinterpret` (src/types.rs lines 154-161). -/
inductive OffsetArg where
  | array (size : Nat)
  | reinterpret
deriving DecidableEq

/-- `OffsetAttr` (src/types.rs lines 154-161): the positional byte offset, an
optional array size, and the reinterpret flag. -/
structure OffsetAttr where
  offset : Nat
  array : Option Nat
  reinterpret : Bool
deriving DecidableEq

/-- Modelled from the spec: the argument parser that the dependency
`attribute_derive` derives for `OffsetAttr` via `FromAttr` is not part of this
repository; only the `conflicts = [reinterpret]` / `conflicts = [array]`
declarations (src/types.rs lines 157-160) and the conflict error message
(lines 150-153) are. Per the spec, specifying both `array` and `reinterpret`
on one field fails with a `ConflictingModifiers` error regardless of argument
order; the loop scans the arguments in order, recording each modifier and
failing as soon as both have been seen. -/
def OffsetAttr.parseLoop (field : String) (offset : Nat) :
    List OffsetArg → Option Nat → Bool → Except PError OffsetAttr
  | [], arr, re => .ok ⟨offset, arr, re⟩
  | .array k :: rest, _, re =>
      if re then .error (.conflictingModifiers field)
      else OffsetAttr.parseLoop field offset rest (some k) re
  | .reinterpret :: rest, arr, _ =>
      if arr.isSome then .error (.conflictingModifiers field)
      else OffsetAttr.parseLoop field offset rest arr true

/-- Modelled from the spec: `OffsetAttr::from_attribute` (the derived
`FromAttr` entry point used at src/lib.rs line 216), starting from the empty
modifier state. -/
def OffsetAttr.from_attribute (field : String) (offset : Nat)
    (args : List OffsetArg) : Except PError OffsetAttr :=
  OffsetAttr.parseLoop field offset args none false

/-- `OffsetAttr::is_array` (src/types.rs lines 165-167). -/
def OffsetAttr.is_array (a : OffsetAttr) : Bool := a.array.isSome

/-- `OffsetAttr::is_valid` (src/types.rs lines 172-180): rejects a declared
array size of 0. -/
def OffsetAttr.is_valid (field : String) (a : OffsetAttr) :
    Except PError Unit :=
  if a.array.any (fun s => s == 0) then .error (.invalidArraySize field)
  else .ok ()

/-- Byte-addressed memory: the byte stored at each address. Reads are
canonicalised to a byte with `% 256`. -/
def Memory : Type := Nat → Nat

/-- The byte at address `a`. -/
def byteAt (mem : Memory) (a : Nat) : Nat := mem a % 256

/-- `core::ptr::read_unaligned` of an `n`-byte value at `addr`: a
little-endian load of the `n` bytes starting at `addr`, with no alignment
requirement on `addr`. -/
def read_unaligned (mem : Memory) (addr : Nat) : Nat → Nat
  | 0 => 0
  | n + 1 => byteAt mem addr + 256 * read_unaligned mem (addr + 1) n

/-- The `n` bytes stored at `[addr, addr + n)`. -/
def bytesAt (mem : Memory) (addr : Nat) (n : Nat) : List Nat :=
  (List.range n).map fun i => byteAt mem (addr + i)

/-- Little-endian interpretation of a byte list as a numeric value. -/
def leValue : List Nat → Nat
  | [] => 0
  | b :: bs => b + 256 * leValue bs

/-- The generated view struct `P<Name>` (src/types.rs line 105): a single
address word. The phantom lifetime marker carries no runtime data and is
omitted. -/
structure View where
  word : Nat
deriving DecidableEq

/-- `P<Name>::new` (src/types.rs lines 109-111): store the base address. -/
def View.new (base : Nat) : View := ⟨base⟩

/-- `is_null` (src/types.rs lines 113-115). -/
def View.is_null (v : View) : Bool := v.word == 0

/-- `addr` (src/types.rs lines 118-120). -/
def View.addr (v : View) : Nat := v.word

/-- The derived `Copy`/`Clone` (injected by `fix_attrs`, src/types.rs lines
44-92): duplication copies the single address word. -/
def View.dup (v : View) : View := ⟨v.word⟩

/-- The body of the generated base getter (`read_expr`, src/types.rs lines
185-198): when `reinterpret` is set or a nonzero array size is declared, the
computed address `self.0 + offset` is itself the returned pointer value
(`transmute` of the address, no load); otherwise the getter performs an
unaligned load of `size = sizeof(field_type)` bytes at that address. -/
def baseGetter (a : OffsetAttr) (size : Nat) (mem : Memory) (v : View) :
    Nat :=
  if a.reinterpret || a.array.any (fun s => s != 0) then
    v.word + a.offset
  else
    read_unaligned mem (v.word + a.offset) size

/-- The generated indexed array getter `get_<field>` (src/types.rs lines
205-218): `None` when `index >= array_size`, otherwise the pointer at
`base_array_ptr + index * array_size`, where `base_array_ptr` is the address
returned by the field's base getter. -/
def indexedGetter (a : OffsetAttr) (array_size : Nat) (size : Nat)
    (mem : Memory) (v : View) (index : Nat) : Option Nat :=
  if index ≥ array_size then none
  else
    let base_array_ptr := baseGetter a size mem v
    let final_addr := base_array_ptr + index * array_size
    some final_addr

/-- Visibility of a generated method. -/
inductive Visibility where
  | pub
  | priv
deriving DecidableEq

/-- A generated indexed accessor together with its visibility. -/
structure IndexedMethod where
  vis : Visibility
  fn : Memory → View → Nat → Option Nat

/-- The methods `OffsetAttr::to_token_stream` generates for one field: the
base getter with its visibility, and the optional indexed getter. -/
structure GenMethods where
  baseVis : Visibility
  base : Memory → View → Nat
  indexed : Option IndexedMethod

/-- `OffsetAttr::to_token_stream` (src/types.rs lines 183-237): for an array
field, a (public) indexed getter is generated and the base getter is private;
otherwise only the public base getter is generated. -/
def OffsetAttr.to_token_stream (a : OffsetAttr) (size : Nat) : GenMethods :=
  let array_method : Option IndexedMethod :=
    match a.array with
    | some array_size => some ⟨.pub, indexedGetter a array_size size⟩
    | none => none
  let visibility_modifier :=
    if !a.is_array then Visibility.pub else Visibility.priv
  ⟨visibility_modifier, baseGetter a size, array_method⟩

/-- One declared field as the macro sees it: name, byte size of its type, and
the `#[offset(...)]` attribute (positional offset plus modifier arguments),
if present. -/
structure FieldDecl where
  name : String
  size : Nat
  attr : Option (Nat × List OffsetArg)
deriving DecidableEq

/-- The struct declaration fed to `p_struct!`: name, whether its fields are
named (`Fields::Named`), whether it has generic parameters, and its fields
(src/types.rs lines 13-41). -/
structure NamedStructDecl where
  name : String
  is_named : Bool
  has_generics : Bool
  fields : List FieldDecl

/-- The per-field step of `p_struct_impl` (src/lib.rs lines 200-226): find
the `offset` attribute (error if absent), parse it, validate it, and generate
the field's methods. -/
def processField (f : FieldDecl) : Except PError GenMethods :=
  match f.attr with
  | some (offset, args) => do
      let a ← OffsetAttr.from_attribute f.name offset args
      a.is_valid f.name
      .ok (a.to_token_stream f.size)
  | none => .error (.missingOffsetAttr f.name)

/-- The field loop of `p_struct_impl`: process the fields in order, stopping
at the first error (the `?` early returns of src/lib.rs lines 200-226). -/
def processFields : List FieldDecl → Except PError (List GenMethods)
  | [] => .ok []
  | f :: rest => do
      let m ← processField f
      let ms ← processFields rest
      .ok (m :: ms)

/-- The generated schema: the view type's name and the accessor methods of
all fields, in declaration order. -/
structure Schema where
  name : String
  methods : List GenMethods

/-- `p_struct_impl` (src/lib.rs lines 192-228) together with
`NamedStruct::parse` (src/types.rs lines 13-41): reject non-named fields and
generic structs, then process every field; any failure aborts the whole
build. -/
def p_struct_impl (d : NamedStructDecl) : Except PError Schema :=
  if !d.is_named then .error .unsupportedShape
  else if d.has_generics then .error .unsupportedShape
  else do
    let ms ← processFields d.fields
    .ok ⟨"P" ++ d.name, ms⟩

/-! ## Helper lemmas -/

/-- An unaligned `n`-byte load is exactly the little-endian value of the `n`
bytes stored at the load address. -/
theorem read_unaligned_eq_bytes (mem : Memory) :
    ∀ (n addr : Nat), read_unaligned mem addr n = leValue (bytesAt mem addr n)
  | 0, _ => rfl
  | n + 1, addr => by
      have hsucc : bytesAt mem addr (n + 1) =
          byteAt mem addr :: bytesAt mem (addr + 1) n := by
        unfold bytesAt
        rw [List.range_succ_eq_map, List.map_cons, List.map_map]
        have hfun : ((fun i => byteAt mem (addr + i)) ∘ Nat.succ) =
            fun i => byteAt mem (addr + 1 + i) :=
          funext fun i => congrArg (byteAt mem) (by omega)
        rw [hfun, Nat.add_zero]
      rw [hsucc]
      simp only [read_unaligned, leValue]
      rw [read_unaligned_eq_bytes mem n (addr + 1)]

/-- Once `reinterpret` has been recorded, a later `array` argument (in fact,
any later argument list still containing one) makes the parse fail with the
conflict error. -/
theorem parseLoop_conflict_after_re (field : String) (offset : Nat)
    (args : List OffsetArg) :
    ∀ (arr : Option Nat) (k : Nat), OffsetArg.array k ∈ args →
      OffsetAttr.parseLoop field offset args arr true =
        .error (.conflictingModifiers field) := by
  induction args with
  | nil => intro arr k hmem; cases hmem
  | cons head rest ih =>
      intro arr k hmem
      cases head with
      | array j => simp [OffsetAttr.parseLoop]
      | reinterpret =>
          have hrest : OffsetArg.array k ∈ rest := by
            cases hmem with
            | tail _ h => exact h
          by_cases hs : arr.isSome
          · simp [OffsetAttr.parseLoop, hs]
          · simp only [OffsetAttr.parseLoop, hs, Bool.false_eq_true,
              if_false]
            exact ih arr k hrest

/-- Once an `array` argument has been recorded, a later `reinterpret`
argument makes the parse fail with the conflict error. -/
theorem parseLoop_conflict_after_array (field : String) (offset : Nat)
    (args : List OffsetArg) :
    ∀ (arr : Option Nat) (re : Bool), arr.isSome = true →
      OffsetArg.reinterpret ∈ args →
      OffsetAttr.parseLoop field offset args arr re =
        .error (.conflictingModifiers field) := by
  induction args with
  | nil => intro arr re _ hmem; cases hmem
  | cons head rest ih =>
      intro arr re hsome hmem
      cases head with
      | array j =>
          have hrest : OffsetArg.reinterpret ∈ rest := by
            cases hmem with
            | tail _ h => exact h
          cases re with
          | true => simp [OffsetAttr.parseLoop]
          | false =>
              simp only [OffsetAttr.parseLoop, Bool.false_eq_true, if_false]
              exact ih (some j) false rfl hrest
      | reinterpret => simp [OffsetAttr.parseLoop, hsome]

/-- An argument list containing both an `array` argument and `reinterpret`
fails to parse with the conflict error, in either order. -/
theorem from_attribute_conflict (field : String) (offset : Nat)
    (args : List OffsetArg) (k : Nat)
    (ha : OffsetArg.array k ∈ args) (hr : OffsetArg.reinterpret ∈ args) :
    OffsetAttr.from_attribute field offset args =
      .error (.conflictingModifiers field) := by
  unfold OffsetAttr.from_attribute
  cases args with
  | nil => cases ha
  | cons head rest =>
      cases head with
      | array j =>
          have hrest : OffsetArg.reinterpret ∈ rest := by
            cases hr with
            | tail _ h => exact h
          simp only [OffsetAttr.parseLoop, Bool.false_eq_true, if_false]
          exact parseLoop_conflict_after_array field offset rest
            (some j) false rfl hrest
      | reinterpret =>
          have hrest : OffsetArg.array k ∈ rest := by
            cases ha with
            | tail _ h => exact h
          simp only [OffsetAttr.parseLoop, Option.isSome_none,
            Bool.false_eq_true, if_false]
          exact parseLoop_conflict_after_re field offset rest none k hrest

/-- If every `array` argument declares size 0, no `reinterpret` argument is
present, and a size-0 array is declared (in the list or already recorded),
the parse succeeds and records `array = some 0`. -/
theorem parseLoop_array_zero (field : String) (offset : Nat) :
    ∀ (args : List OffsetArg) (arr : Option Nat),
      (∀ j, OffsetArg.array j ∈ args → j = 0) →
      OffsetArg.reinterpret ∉ args →
      (OffsetArg.array 0 ∈ args ∨ arr = some 0) →
      OffsetAttr.parseLoop field offset args arr false =
        .ok ⟨offset, some 0, false⟩ := by
  intro args
  induction args with
  | nil =>
      intro arr _ _ h0
      rcases h0 with h | h
      · cases h
      · rw [h]; rfl
  | cons head rest ih =>
      intro arr hall hnre h0
      cases head with
      | array j =>
          have hj : j = 0 := hall j (List.mem_cons_self _ _)
          subst hj
          simp only [OffsetAttr.parseLoop, Bool.false_eq_true, if_false]
          refine ih (some 0) (fun j hj => hall j (List.mem_cons_of_mem _ hj))
            (fun h => hnre (List.mem_cons_of_mem _ h)) (Or.inr rfl)
      | reinterpret => exact absurd (List.mem_cons_self _ _) hnre

/-- A field list containing a failing field makes the field loop fail with
the error of some (the first) failing field. -/
theorem processFields_error (l : List FieldDecl) :
    ∀ f ∈ l, ∀ e, processField f = .error e →
      ∃ g, g ∈ l ∧ ∃ e', processField g = .error e' ∧
        processFields l = .error e' := by
  induction l with
  | nil => intro f hf; cases hf
  | cons head rest ih =>
      intro f hf e he
      cases hh : processField head with
      | error e0 =>
          exact ⟨head, List.mem_cons_self _ _, e0, hh, by
            simp [processFields, hh, bind, Except.bind]⟩
      | ok m =>
          have hf' : f ∈ rest := by
            cases hf with
            | head => rw [hh] at he; cases he
            | tail _ h => exact h
          obtain ⟨g, hg, e', he', hpf⟩ := ih f hf' e he
          exact ⟨g, List.mem_cons_of_mem _ hg, e', he', by
            simp [processFields, hh, hpf, bind, Except.bind]⟩

/-- A field list whose every field processes successfully makes the field
loop succeed, producing one method set per field. -/
theorem processFields_ok (l : List FieldDecl)
    (h : ∀ f ∈ l, (processField f).isOk = true) :
    ∃ ms, processFields l = .ok ms ∧ ms.length = l.length := by
  induction l with
  | nil => exact ⟨[], rfl, rfl⟩
  | cons head rest ih =>
      have hh := h head (List.mem_cons_self _ _)
      cases hm : processField head with
      | error e => rw [hm] at hh; cases hh
      | ok m =>
          obtain ⟨ms, hms, hlen⟩ :=
            ih fun f hf => h f (List.mem_cons_of_mem _ hf)
          refine ⟨m :: ms, by
            simp [processFields, hm, hms, bind, Except.bind], by
            simp [hlen]⟩

/-! ## Claim theorems -/

/-- C1: For every Array-mode field with declared size `k`, the generated
indexed accessor (the one `to_token_stream` emits) invoked with index `i`
returns `none` whenever `i ≥ k`, and for every `i < k` it succeeds and
returns the pointer at `base_array_address + i * k` (that is,
`base + offset + i * k`), the per-element stride being the declared array
size `k` itself, not the element size. -/
theorem array_indexed_access (a : OffsetAttr) (k size : Nat) (mem : Memory)
    (v : View) (i : Nat) (hk : a.array = some k) :
    (a.to_token_stream size).indexed =
      some ⟨.pub, indexedGetter a k size⟩ ∧
    (k ≤ i → indexedGetter a k size mem v i = none) ∧
    (i < k → indexedGetter a k size mem v i =
      some (v.word + a.offset + i * k)) := by
  refine ⟨?_, ?_, ?_⟩
  · simp [OffsetAttr.to_token_stream, hk]
  · intro h
    simp [indexedGetter, h]
  · intro h
    have hge : ¬ i ≥ k := by omega
    have hk0 : k ≠ 0 := by omega
    have hcond : (a.reinterpret || a.array.any (fun s => s != 0)) = true := by
      rw [hk]; simp [hk0]
    simp [indexedGetter, baseGetter, hge, hcond]

/-- C1 witness at a concrete Array-mode field (offset 5, declared size 10):
index 3 yields the address `100 + 5 + 3 * 10`, index 12 is absent. -/
theorem array_indexed_access_witness :
    indexedGetter ⟨5, some 10, false⟩ 10 8 (fun _ => 0) ⟨100⟩ 3 =
      some (100 + 5 + 3 * 10) ∧
    indexedGetter ⟨5, some 10, false⟩ 10 8 (fun _ => 0) ⟨100⟩ 12 = none :=
  ⟨(array_indexed_access ⟨5, some 10, false⟩ 10 8 (fun _ => 0) ⟨100⟩ 3
      rfl).2.2 (by decide),
   (array_indexed_access ⟨5, some 10, false⟩ 10 8 (fun _ => 0) ⟨100⟩ 12
      rfl).2.1 (by decide)⟩

/-- C2: For every Reinterpret-mode field at offset `o`, the accessor returns
exactly `base + o`, computed without loading through that address: the
result is the same for every memory, hence independent of the bytes stored
at `base + o`. -/
theorem reinterpret_returns_address (a : OffsetAttr) (size : Nat) (v : View)
    (hr : a.reinterpret = true) (_ha : a.array = none) :
    (∀ mem : Memory,
      (a.to_token_stream size).base mem v = v.word + a.offset) ∧
    (∀ mem mem' : Memory,
      (a.to_token_stream size).base mem v =
        (a.to_token_stream size).base mem' v) := by
  have hbase : ∀ mem : Memory,
      (a.to_token_stream size).base mem v = v.word + a.offset := by
    intro mem
    simp [OffsetAttr.to_token_stream, baseGetter, hr]
  exact ⟨hbase, fun mem mem' => (hbase mem).trans (hbase mem').symm⟩

/-- C2 witness: a concrete Reinterpret-mode field at offset 15 over a
nonzero memory returns the pointer value `32 + 15`. -/
theorem reinterpret_returns_address_witness :
    ((⟨15, none, true⟩ : OffsetAttr).to_token_stream 8).base
      (fun x => x + 7) ⟨32⟩ = 32 + 15 :=
  (reinterpret_returns_address ⟨15, none, true⟩ 8 ⟨32⟩ rfl rfl).1
    (fun x => x + 7)

/-- C3: For every Direct-mode field of byte size `size` at offset `o`, the
accessor performs an unaligned load and returns exactly the `size` bytes at
`[base+o, base+o+size)`, interpreted little-endian; no alignment hypothesis
on the base address or the offset appears. -/
theorem direct_loads_bytes (a : OffsetAttr) (size : Nat) (mem : Memory)
    (v : View) (hr : a.reinterpret = false) (ha : a.array = none) :
    (a.to_token_stream size).base mem v =
      leValue (bytesAt mem (v.word + a.offset) size) := by
  have hcond : (a.reinterpret || a.array.any (fun s => s != 0)) = false := by
    rw [hr, ha]; rfl
  simp only [OffsetAttr.to_token_stream]
  simp only [baseGetter, hcond, Bool.false_eq_true, if_false]
  exact read_unaligned_eq_bytes mem size (v.word + a.offset)

/-- C3 witness: a concrete Direct-mode 4-byte field at offset 1 over the
identity memory returns the little-endian value of the bytes at 1..4. -/
theorem direct_loads_bytes_witness :
    ((⟨1, none, false⟩ : OffsetAttr).to_token_stream 4).base (fun x => x)
      ⟨0⟩ = leValue (bytesAt (fun x => x) (0 + 1) 4) :=
  direct_loads_bytes ⟨1, none, false⟩ 4 (fun x => x) ⟨0⟩ rfl rfl

/-- A declaration with two fields sharing the name `a`, both carrying valid
`offset` attributes. -/
def dupDecl : NamedStructDecl :=
  ⟨"Example", true, false,
    [⟨"a", 4, some (0, [])⟩, ⟨"a", 4, some (4, [])⟩]⟩

/-- C4 counterexample: schema construction does not fail on duplicate field
names — building `dupDecl`, whose two fields are both named `a`, succeeds
rather than raising a duplicate-field error. -/
theorem duplicate_names_accepted : (p_struct_impl dupDecl).isOk = true := rfl

/-- C4 amended: `p_struct_impl` performs no duplicate-name check at all:
every named, non-generic declaration whose fields all validate individually
builds successfully, one method set per field, duplicate names included (the
clash only surfaces later, when the host compiler rejects the two generated
methods of the same name). -/
theorem no_duplicate_name_check (d : NamedStructDecl)
    (hn : d.is_named = true) (hg : d.has_generics = false)
    (hf : ∀ f ∈ d.fields, (processField f).isOk = true) :
    ∃ s, p_struct_impl d = .ok s ∧
      s.methods.length = d.fields.length := by
  obtain ⟨ms, hms, hlen⟩ := processFields_ok d.fields hf
  refine ⟨⟨"P" ++ d.name, ms⟩, ?_, hlen⟩
  simp [p_struct_impl, hn, hg, hms, bind, Except.bind]

/-- C4 amended witness: the duplicate-name declaration builds and yields one
method set per field. -/
theorem no_duplicate_name_check_witness :
    ∃ s, p_struct_impl dupDecl = .ok s ∧
      s.methods.length = dupDecl.fields.length :=
  no_duplicate_name_check dupDecl rfl rfl (by decide)

/-- C5: a field declaration specifying both the `array` and the
`reinterpret` modifiers always fails with `ConflictingModifiers`, whatever
the order of the two modifiers in the argument list. -/
theorem conflicting_modifiers_rejected (f : FieldDecl) (offset : Nat)
    (args : List OffsetArg) (k : Nat) (hattr : f.attr = some (offset, args))
    (ha : OffsetArg.array k ∈ args) (hr : OffsetArg.reinterpret ∈ args) :
    processField f = .error (.conflictingModifiers f.name) := by
  simp only [processField, hattr]
  rw [from_attribute_conflict f.name offset args k ha hr]
  rfl

/-- C5 witness: both modifier orders on a concrete field fail with the
conflict error. -/
theorem conflicting_modifiers_rejected_witness :
    processField ⟨"f", 8, some (2, [.array 3, .reinterpret])⟩ =
      .error (.conflictingModifiers "f") ∧
    processField ⟨"f", 8, some (2, [.reinterpret, .array 3])⟩ =
      .error (.conflictingModifiers "f") :=
  ⟨conflicting_modifiers_rejected
      ⟨"f", 8, some (2, [.array 3, .reinterpret])⟩ 2
      [.array 3, .reinterpret] 3 rfl (by decide) (by decide),
   conflicting_modifiers_rejected
      ⟨"f", 8, some (2, [.reinterpret, .array 3])⟩ 2
      [.reinterpret, .array 3] 3 rfl (by decide) (by decide)⟩

/-- C6: a field declaring `array(0)` fails with `InvalidArraySize`; and the
size check runs only after conflict checking, so a field declaring both
`reinterpret` and `array(0)` fails with `ConflictingModifiers`, never with
`InvalidArraySize`. -/
theorem array_zero_rejected (f : FieldDecl) (offset : Nat)
    (args : List OffsetArg) (hattr : f.attr = some (offset, args))
    (h0 : OffsetArg.array 0 ∈ args) :
    (OffsetArg.reinterpret ∉ args →
      (∀ j, OffsetArg.array j ∈ args → j = 0) →
      processField f = .error (.invalidArraySize f.name)) ∧
    (OffsetArg.reinterpret ∈ args →
      processField f = .error (.conflictingModifiers f.name)) := by
  constructor
  · intro hnre hall
    have hparse : OffsetAttr.from_attribute f.name offset args =
        .ok ⟨offset, some 0, false⟩ :=
      parseLoop_array_zero f.name offset args none hall hnre (Or.inl h0)
    simp only [processField, hattr]
    rw [hparse]
    rfl
  · intro hre
    simp only [processField, hattr]
    rw [from_attribute_conflict f.name offset args 0 h0 hre]
    rfl

/-- C6 witness: a concrete `array(0)` field fails with `InvalidArraySize`,
and a concrete `reinterpret, array(0)` field fails with
`ConflictingModifiers`. -/
theorem array_zero_rejected_witness :
    processField ⟨"xs", 8, some (4, [.array 0])⟩ =
      .error (.invalidArraySize "xs") ∧
    processField ⟨"xs", 8, some (4, [.reinterpret, .array 0])⟩ =
      .error (.conflictingModifiers "xs") :=
  ⟨(array_zero_rejected ⟨"xs", 8, some (4, [.array 0])⟩ 4 [.array 0] rfl
      (by decide)).1 (by decide)
      (by intro j hj; cases hj with
          | head => rfl
          | tail _ h => cases h),
   (array_zero_rejected ⟨"xs", 8, some (4, [.reinterpret, .array 0])⟩ 4
      [.reinterpret, .array 0] rfl (by decide)).2 (by decide)⟩

/-- C7: accessor visibility follows the access mode: a non-array field
(Direct or Reinterpret) gets a public base getter and no indexed getter; an
Array-mode field gets a private base getter, and its only other accessor,
the bounds-checked indexed getter, is public. -/
theorem visibility_follows_mode (a : OffsetAttr) (size : Nat) :
    (a.is_array = false →
      (a.to_token_stream size).baseVis = .pub ∧
      (a.to_token_stream size).indexed = none) ∧
    (a.is_array = true →
      (a.to_token_stream size).baseVis = .priv ∧
      ∃ m, (a.to_token_stream size).indexed = some m ∧ m.vis = .pub) := by
  cases ha : a.array with
  | none =>
      refine ⟨fun _ => ?_, fun hc => ?_⟩
      · constructor <;>
          simp [OffsetAttr.to_token_stream, OffsetAttr.is_array, ha]
      · simp [OffsetAttr.is_array, ha] at hc
  | some k =>
      refine ⟨fun hc => ?_, fun _ => ?_⟩
      · simp [OffsetAttr.is_array, ha] at hc
      · refine ⟨?_, ⟨.pub, indexedGetter a k size⟩, ?_, rfl⟩ <;>
          simp [OffsetAttr.to_token_stream, OffsetAttr.is_array, ha]

/-- C7 witness: a concrete Direct field gets a public getter and no indexed
accessor; a concrete Array field gets a private base getter and a public
indexed accessor. -/
theorem visibility_follows_mode_witness :
    (((⟨0, none, false⟩ : OffsetAttr).to_token_stream 4).baseVis = .pub ∧
      ((⟨0, none, false⟩ : OffsetAttr).to_token_stream 4).indexed = none) ∧
    (((⟨0, some 3, false⟩ : OffsetAttr).to_token_stream 8).baseVis =
        .priv ∧
      ∃ m, ((⟨0, some 3, false⟩ : OffsetAttr).to_token_stream 8).indexed =
        some m ∧ m.vis = .pub) :=
  ⟨(visibility_follows_mode ⟨0, none, false⟩ 4).1 rfl,
   (visibility_follows_mode ⟨0, some 3, false⟩ 8).2 rfl⟩

/-- C8: every validation failure is fatal to the whole schema: a non-named
or generic declaration fails with `UnsupportedShape`, and a declaration
containing any failing field fails with the field-attributed error of some
(the first) failing field; no schema value — partial or otherwise — is
produced in either case. -/
theorem whole_schema_generation_fails (d : NamedStructDecl) :
    ((d.is_named = false ∨ d.has_generics = true) →
      p_struct_impl d = .error .unsupportedShape) ∧
    (∀ f e, d.is_named = true → d.has_generics = false → f ∈ d.fields →
      processField f = .error e →
      ∃ g, g ∈ d.fields ∧ ∃ e', processField g = .error e' ∧
        p_struct_impl d = .error e') := by
  constructor
  · rintro (h | h) <;> simp [p_struct_impl, h]
  · intro f e hn hg hf he
    obtain ⟨g, hg', e', he', hpf⟩ := processFields_error d.fields f hf e he
    exact ⟨g, hg', e', he', by
      simp [p_struct_impl, hn, hg, hpf, bind, Except.bind]⟩

/-- C8 witness: a generic declaration fails with `UnsupportedShape`, and a
declaration containing a field without an `offset` attribute fails with a
field-attributed error. -/
theorem whole_schema_generation_fails_witness :
    p_struct_impl ⟨"G", true, true, []⟩ = .error .unsupportedShape ∧
    ∃ g, g ∈ [(⟨"ok", 4, some (0, [])⟩ : FieldDecl), ⟨"bad", 4, none⟩] ∧
      ∃ e', processField g = .error e' ∧
        p_struct_impl ⟨"B", true, false,
          [⟨"ok", 4, some (0, [])⟩, ⟨"bad", 4, none⟩]⟩ = .error e' :=
  ⟨(whole_schema_generation_fails ⟨"G", true, true, []⟩).1 (Or.inr rfl),
   (whole_schema_generation_fails ⟨"B", true, false,
      [⟨"ok", 4, some (0, [])⟩, ⟨"bad", 4, none⟩]⟩).2
      ⟨"bad", 4, none⟩ (.missingOffsetAttr "bad") rfl rfl
      (by decide) rfl⟩

/-- C9: duplicating a view copies only the address word, and every accessor
result on the duplicate is identical to the original: base getters, any
generated indexed getter, `is_null` and `addr` depend solely on the stored
address value. -/
theorem duplicate_view_same_results (a : OffsetAttr) (size : Nat)
    (mem : Memory) (v : View) (index : Nat) :
    (a.to_token_stream size).base mem v.dup =
      (a.to_token_stream size).base mem v ∧
    (∀ m : IndexedMethod, (a.to_token_stream size).indexed = some m →
      m.fn mem v.dup index = m.fn mem v index) ∧
    v.dup.is_null = v.is_null ∧ v.dup.addr = v.addr := by
  have hdup : v.dup = v := rfl
  rw [hdup]
  exact ⟨rfl, fun m _ => rfl, rfl, rfl⟩

/-- C9 witness: on a concrete Array-mode field, the duplicate of the view at
address 7 gives the same base-getter and indexed-getter results as the
original. -/
theorem duplicate_view_same_results_witness :
    ((⟨5, some 10, false⟩ : OffsetAttr).to_token_stream 8).base
        (fun x => x) (View.dup ⟨7⟩) =
      ((⟨5, some 10, false⟩ : OffsetAttr).to_token_stream 8).base
        (fun x => x) ⟨7⟩ ∧
    IndexedMethod.fn ⟨.pub, indexedGetter ⟨5, some 10, false⟩ 10 8⟩
        (fun x => x) (View.dup ⟨7⟩) 2 =
      IndexedMethod.fn ⟨.pub, indexedGetter ⟨5, some 10, false⟩ 10 8⟩
        (fun x => x) ⟨7⟩ 2 :=
  ⟨(duplicate_view_same_results ⟨5, some 10, false⟩ 8 (fun x => x) ⟨7⟩
      2).1,
   (duplicate_view_same_results ⟨5, some 10, false⟩ 8 (fun x => x) ⟨7⟩
      2).2.1 ⟨.pub, indexedGetter ⟨5, some 10, false⟩ 10 8⟩ rfl⟩

/-- C10: for an Array-mode field (declared size positive, as validation
guarantees), the indexed accessor at index 0 returns exactly the address the
(non-public) base accessor returns, namely `base + offset`: element 0 and
the array base coincide. -/
theorem index_zero_is_base (a : OffsetAttr) (k size : Nat) (mem : Memory)
    (v : View) (hk : a.array = some k) (hpos : 0 < k) :
    indexedGetter a k size mem v 0 =
      some ((a.to_token_stream size).base mem v) ∧
    (a.to_token_stream size).base mem v = v.word + a.offset := by
  have hk0 : k ≠ 0 := by omega
  have hcond : (a.reinterpret || a.array.any (fun s => s != 0)) = true := by
    rw [hk]; simp [hk0]
  have hbase : (a.to_token_stream size).base mem v = v.word + a.offset := by
    simp [OffsetAttr.to_token_stream, baseGetter, hcond]
  refine ⟨?_, hbase⟩
  rw [hbase]
  simp only [indexedGetter]
  rw [if_neg (by omega)]
  simp [baseGetter, hcond]

/-- C10 witness: on a concrete Array-mode field at offset 2 with declared
size 4, index 0 returns exactly the base-accessor address. -/
theorem index_zero_is_base_witness :
    indexedGetter ⟨2, some 4, false⟩ 4 8 (fun _ => 9) ⟨40⟩ 0 =
      some (((⟨2, some 4, false⟩ : OffsetAttr).to_token_stream 8).base
        (fun _ => 9) ⟨40⟩) :=
  (index_zero_is_base ⟨2, some 4, false⟩ 4 8 (fun _ => 9) ⟨40⟩ rfl
    (by decide)).1

end PStruct
